import Mathlib

/-!
Shallow embedding of the `GenericRouter` CRUD dispatch layer of
`bsy-generic-router`.

The repository carries two variants of the router.  The first (`V1`
below) exposes `create`, `retrieve`, `retrieveByID`, `retrieveWhere`,
`update`, `delete`, `replace` and `options`, reading column aliases
through `primaryKey[0].mapTo`.  The second (`V2` below) adds the
body-reconciliation step `updateBody`, used by `create` and `update`,
and reads aliases through `getPrimaryKey()[0].getAlias()` — the same
underlying column alias, modelled by the single field `Column.mapTo`.

JavaScript values reaching the router are modelled by `JsVal`; request
bodies and route parameters are association lists (`JsObj`).  A DAO is
a per-operation capability map: an operation name is bound to `none`
(key absent) or to a property that is `undefined`, a non-callable
value, or a callable returning either a synchronous throw or a settled
single-shot promise.  Every router entry point is a pure function from
the router configuration and the request to the list of observable
events: DAO invocations, error-channel (`next`) calls, responder calls
(`status`/`json`) and synchronous raises.  `JSON.parse` is external to
the repository and is passed in as an explicit parameter of
`retrieveWhere`.
-/

namespace BsyRouter

/-- A JavaScript value, as far as the router inspects one. -/
inductive JsVal where
  | undef
  | str (s : String)
  | num (n : Int)
  | obj (fields : List (String × JsVal))

/-- A keyed record (`req.body`, `req.params`). -/
abbrev JsObj := List (String × JsVal)

/-- JavaScript truthiness for the values the router branches on. -/
def truthy : JsVal → Bool
  | .undef => false
  | .str s => s ≠ ""
  | .num n => n ≠ 0
  | .obj _ => true

/-- Property read `o[k]`: an absent key reads as `undefined`. -/
def objGet (o : JsObj) (k : String) : JsVal :=
  match o with
  | [] => .undef
  | (k', v) :: rest => if k' = k then v else objGet rest k

/-- Property write `o[k] = v`. -/
def objSet (o : JsObj) (k : String) (v : JsVal) : JsObj :=
  match o with
  | [] => [(k, v)]
  | (k', v') :: rest =>
      if k' = k then (k, v) :: rest else (k', v') :: objSet rest k v

/-- Query-string read: `req.query[k]`, a string when the key exists. -/
def qGet (q : List (String × String)) (k : String) : Option String :=
  match q with
  | [] => none
  | (k', s) :: rest => if k' = k then some s else qGet rest k

/-- A JavaScript `Error`-like object: the router reads `message` and
`code` off DAO errors and constructs tagged errors of its own. -/
structure JsError where
  name : String
  message : String
  code : Option String
  field : Option String
deriving DecidableEq, Repr

/-- `new NotFoundError(message)` from `bsy-error`. -/
def NotFoundError (message : String) : JsError :=
  { name := "NotFoundError", message := message, code := none, field := none }

/-- `new ValidationError(message, code, field)` from `bsy-error`. -/
def ValidationError (message code fld : String) : JsError :=
  { name := "ValidationError", message := message, code := some code, field := some fld }

/-- A plain `new Error(message)`. -/
def jsNewError (message : String) : JsError :=
  { name := "Error", message := message, code := none, field := none }

/-- An `ndm` column: `mapTo` is the exposed alias (`getAlias()`). -/
structure Column where
  mapTo : String
deriving DecidableEq, Repr

/-- An `ndm` table: name and ordered primary-key columns. -/
structure Table where
  name : String
  primaryKey : List Column
deriving DecidableEq, Repr

/-- `table.primaryKey[0].mapTo`, the alias of the first primary-key
column; the schema layer guarantees `primaryKey` is non-empty. -/
def pkAlias (t : Table) : String :=
  (t.primaryKey.headD { mapTo := "" }).mapTo

/-- The seven DAO operation names the router dispatches on. -/
inductive OpName where
  | create | retrieve | retrieveByID | update | delete | replace | options
deriving DecidableEq, Repr

def opStr : OpName → String
  | .create => "create"
  | .retrieve => "retrieve"
  | .retrieveByID => "retrieveByID"
  | .update => "update"
  | .delete => "delete"
  | .replace => "replace"
  | .options => "options"

/-- The settled state of the single-shot promise a DAO method returns. -/
inductive PResult where
  | res (v : JsVal)
  | rej (e : JsError)

/-- Invoking a DAO method either throws synchronously or returns a
promise that settles. -/
inductive DaoCall where
  | throws (e : JsError)
  | prom (p : PResult)

/-- A DAO method, JavaScript-style: a function of its argument list. -/
abbrev DaoFn := List JsVal → DaoCall

/-- A property value as seen through `dao[method]`: the key may hold
`undefined`, a non-callable value, or a callable. -/
inductive JsProp (τ : Type) where
  | undef
  | notFn
  | fn (f : τ)

/-- The DAO capability map; `none` models an absent key. -/
abbrev Dao := OpName → Option (JsProp DaoFn)

/-- `hasMethod(method)`: `this.dao[method] !== undefined`. -/
def hasMethod (d : Dao) (m : OpName) : Bool :=
  match d m with
  | some .notFn => true
  | some (.fn _) => true
  | _ => false

/-- The spec's wording for the Capability Guard: `method` is a key of
the DAO object, whatever value it holds.  Kept separate from
`hasMethod` to compare the two. -/
def keyPresent (d : Dao) (m : OpName) : Bool :=
  (d m).isSome

/-- One observable event of a dispatch call. -/
inductive Event where
  | daoCall (m : OpName) (args : List JsVal)
  | nextCall (e : JsError)
  | statusCall (code : Nat)
  | jsonCall (v : JsVal)
  | throwEv (e : JsError)

/-- `this.dao[m](args)`: calling a missing or non-callable property
throws a `TypeError`. -/
def invoke (d : Dao) (m : OpName) (args : List JsVal) : DaoCall :=
  match d m with
  | some (.fn f) => f args
  | _ =>
      .throws { name := "TypeError"
              , message := "dao." ++ opStr m ++ " is not a function"
              , code := none, field := none }

/-- `promise.then(onRes).catch(next)`: a resolution produces the
responder events, a rejection calls the error channel with the error
unchanged, and a synchronous throw propagates out of the operation. -/
def settle (c : DaoCall) (onRes : JsVal → List Event) : List Event :=
  match c with
  | .throws e => [.throwEv e]
  | .prom (.res v) => onRes v
  | .prom (.rej e) => [.nextCall e]

def isNextEv : Event → Bool
  | .nextCall _ => true
  | _ => false

def isJsonEv : Event → Bool
  | .jsonCall _ => true
  | _ => false

def isStatusEv : Event → Bool
  | .statusCall _ => true
  | _ => false

def isDaoEv : Event → Bool
  | .daoCall _ _ => true
  | _ => false

def isThrowEv : Event → Bool
  | .throwEv _ => true
  | _ => false

/-- Number of events in a trace satisfying a predicate. -/
def evCount (p : Event → Bool) : List Event → Nat
  | [] => 0
  | e :: t => (if p e then 1 else 0) + evCount p t

/-- Number of error-channel (`next`) invocations in a trace. -/
def nextCount (t : List Event) : Nat := evCount isNextEv t

/-- Number of `res.json` invocations in a trace. -/
def jsonCount (t : List Event) : Nat := evCount isJsonEv t

/-- Number of `res.status` invocations in a trace. -/
def statusCount (t : List Event) : Nat := evCount isStatusEv t

/-- Number of DAO invocations in a trace. -/
def daoCount (t : List Event) : Nat := evCount isDaoEv t

/-- Number of synchronous raises escaping the operation. -/
def throwCount (t : List Event) : Nat := evCount isThrowEv t

/-- Router state fixed at construction: `(dao, table, parentTable?)`. -/
structure Router where
  dao : Dao
  table : Table
  parentTable : Option Table

namespace V1

/-- Express request as consumed by the first router variant. -/
structure Req where
  body : JsVal
  params : JsObj
  query : List (String × String)

/-- Default `onNotImplemented`: `next(new NotFoundError(...))`. -/
def onNotImplemented (m : OpName) : List Event :=
  [.nextCall (NotFoundError ("Method " ++ opStr m ++ " not available."))]

/-- `_verifyImpl(method, ...)`: `true` when the DAO has the method,
otherwise the `onNotImplemented` events paired with `false`. -/
def verifyImpl (d : Dao) (m : OpName) : Bool × List Event :=
  if hasMethod d m then (true, []) else (false, onNotImplemented m)

/-- `GenericRouter.create` (first variant). -/
def create (r : Router) (req : Req) : List Event :=
  match verifyImpl r.dao .create with
  | (false, evs) => evs
  | (true, _) =>
      .daoCall .create [req.body] ::
        settle (invoke r.dao .create [req.body])
          (fun v => [.statusCall 201, .jsonCall v])

/-- `GenericRouter.retrieve` (first variant). -/
def retrieve (r : Router) (req : Req) : List Event :=
  match verifyImpl r.dao .retrieve with
  | (false, evs) => evs
  | (true, _) =>
      match r.parentTable with
      | some pt =>
          .daoCall .retrieve [objGet req.params (pkAlias pt)] ::
            settle (invoke r.dao .retrieve [objGet req.params (pkAlias pt)])
              (fun v => [.jsonCall v])
      | none =>
          .daoCall .retrieve [] ::
            settle (invoke r.dao .retrieve []) (fun v => [.jsonCall v])

/-- `GenericRouter.retrieveByID` (first variant). -/
def retrieveByID (r : Router) (req : Req) : List Event :=
  match verifyImpl r.dao .retrieveByID with
  | (false, evs) => evs
  | (true, _) =>
      .daoCall .retrieveByID [objGet req.params (pkAlias r.table)] ::
        settle (invoke r.dao .retrieveByID [objGet req.params (pkAlias r.table)])
          (fun v => [.jsonCall v])

/-- The read of one query-string field in `retrieveWhere`: an absent
or empty field is skipped (the local stays `undefined`), otherwise the
field is handed to `JSON.parse`. -/
def parseQueryField (parse : String → Except String JsVal)
    (q : List (String × String)) (k : String) : Except String JsVal :=
  match qGet q k with
  | none => .ok .undef
  | some s => if s = "" then .ok .undef else parse s

/-- `GenericRouter.retrieveWhere` (first variant).  The two JSON
parses run first; the DAO call is wrapped in `try`/`catch`, and a
synchronous throw carrying code `CONDITION_ERROR` is re-signalled as a
`ValidationError` on field `where`. -/
def retrieveWhere (parse : String → Except String JsVal)
    (r : Router) (req : Req) : List Event :=
  match verifyImpl r.dao .retrieve with
  | (false, evs) => evs
  | (true, _) =>
      match parseQueryField parse req.query "where" with
      | .error msg =>
          [.nextCall (ValidationError
            ("\"where\" does not contain valid JSON: " ++ msg) "VAL_JSON" "where")]
      | .ok w =>
          match parseQueryField parse req.query "params" with
          | .error msg =>
              [.nextCall (ValidationError
                ("\"params\" does not contain valid JSON: " ++ msg) "VAL_JSON" "params")]
          | .ok p =>
              .daoCall .retrieve [w, p] ::
                match invoke r.dao .retrieve [w, p] with
                | .throws e =>
                    if e.code = some "CONDITION_ERROR" then
                      [.nextCall (ValidationError e.message (e.code.getD "") "where")]
                    else
                      [.nextCall e]
                | .prom (.res v) => [.jsonCall v]
                | .prom (.rej e) => [.nextCall e]

/-- `GenericRouter.update` (first variant). -/
def update (r : Router) (req : Req) : List Event :=
  match verifyImpl r.dao .update with
  | (false, evs) => evs
  | (true, _) =>
      .daoCall .update [req.body] ::
        settle (invoke r.dao .update [req.body]) (fun v => [.jsonCall v])

/-- `GenericRouter.delete` (first variant). -/
def delete (r : Router) (req : Req) : List Event :=
  match verifyImpl r.dao .delete with
  | (false, evs) => evs
  | (true, _) =>
      .daoCall .delete [.obj [(pkAlias r.table, objGet req.params (pkAlias r.table))]] ::
        settle (invoke r.dao .delete
            [.obj [(pkAlias r.table, objGet req.params (pkAlias r.table))]])
          (fun v => [.jsonCall v])

/-- `GenericRouter.replace` (first variant). -/
def replace (r : Router) (req : Req) : List Event :=
  match verifyImpl r.dao .replace with
  | (false, evs) => evs
  | (true, _) =>
      match r.parentTable with
      | none => [.throwEv (jsNewError "Parent table is required for replace operations.")]
      | some pt =>
          .daoCall .replace [.str pt.name, objGet req.params (pkAlias pt), req.body] ::
            settle (invoke r.dao .replace
                [.str pt.name, objGet req.params (pkAlias pt), req.body])
              (fun v => [.statusCall 201, .jsonCall v])

/-- `GenericRouter.options` (first variant). -/
def options (r : Router) (_req : Req) : List Event :=
  match verifyImpl r.dao .options with
  | (false, evs) => evs
  | (true, _) =>
      .daoCall .options [] ::
        settle (invoke r.dao .options []) (fun v => [.jsonCall v])

/-- Dispatch by operation name, as the route wiring does. -/
def runOp (r : Router) (m : OpName) (req : Req) : List Event :=
  match m with
  | .create => create r req
  | .retrieve => retrieve r req
  | .retrieveByID => retrieveByID r req
  | .update => update r req
  | .delete => delete r req
  | .replace => replace r req
  | .options => options r req

end V1

namespace V2

/-- Express request as consumed by the second router variant; the
body is the keyed record the body parser produces. -/
structure Req where
  body : JsObj
  params : JsObj

/-- Default `onNotImplemented` (second variant, identical text). -/
def onNotImplemented (m : OpName) : List Event :=
  [.nextCall (NotFoundError ("Method " ++ opStr m ++ " not available."))]

/-- `_verifyImpl` (second variant). -/
def verifyImpl (d : Dao) (m : OpName) : Bool × List Event :=
  if hasMethod d m then (true, []) else (false, onNotImplemented m)

/-- `GenericRouter.updateBody` (second variant): when the table's own
primary-key alias is truthy in `params` it is copied over the body
field of that alias; with a parent table configured the parent alias
is copied unconditionally.  Returns the updated request and the
method's boolean result. -/
def updateBody (r : Router) (req : Req) : Req × Bool :=
  let pkA := pkAlias r.table
  let req1 :=
    if truthy (objGet req.params pkA) then
      { req with body := objSet req.body pkA (objGet req.params pkA) }
    else req
  match r.parentTable with
  | none => (req1, true)
  | some pt =>
      ({ req1 with body := objSet req1.body (pkAlias pt) (objGet req1.params (pkAlias pt)) },
       true)

/-- `GenericRouter.create` (second variant): reconcile the body, then
`dao.create(req.body)`. -/
def create (r : Router) (req : Req) : List Event :=
  match verifyImpl r.dao .create with
  | (false, evs) => evs
  | (true, _) =>
      match updateBody r req with
      | (_, false) => []
      | (req', true) =>
          .daoCall .create [.obj req'.body] ::
            settle (invoke r.dao .create [.obj req'.body])
              (fun v => [.statusCall 201, .jsonCall v])

/-- `GenericRouter.update` (second variant): reconcile the body, then
`dao.update(req.body)`. -/
def update (r : Router) (req : Req) : List Event :=
  match verifyImpl r.dao .update with
  | (false, evs) => evs
  | (true, _) =>
      match updateBody r req with
      | (_, false) => []
      | (req', true) =>
          .daoCall .update [.obj req'.body] ::
            settle (invoke r.dao .update [.obj req'.body])
              (fun v => [.jsonCall v])

/-- `GenericRouter.replace` (second variant). -/
def replace (r : Router) (req : Req) : List Event :=
  match verifyImpl r.dao .replace with
  | (false, evs) => evs
  | (true, _) =>
      match r.parentTable with
      | none => [.throwEv (jsNewError "Parent table is required for replace operations.")]
      | some pt =>
          .daoCall .replace [.str pt.name, objGet req.params (pkAlias pt), .obj req.body] ::
            settle (invoke r.dao .replace
                [.str pt.name, objGet req.params (pkAlias pt), .obj req.body])
              (fun v => [.statusCall 201, .jsonCall v])

end V2

/-! ### Association-list lemmas -/

@[simp]
theorem objGet_objSet_self (o : JsObj) (k : String) (v : JsVal) :
    objGet (objSet o k v) k = v := by
  induction o with
  | nil => simp [objGet, objSet]
  | cons hd t ih =>
      obtain ⟨k', v'⟩ := hd
      by_cases hk : k' = k <;> simp [objGet, objSet, hk, ih]

theorem objGet_objSet_ne (o : JsObj) (k k' : String) (v : JsVal) (h : k ≠ k') :
    objGet (objSet o k v) k' = objGet o k' := by
  induction o with
  | nil => simp [objGet, objSet, h]
  | cons hd t ih =>
      obtain ⟨a, b⟩ := hd
      by_cases ha : a = k
      · subst ha
        simp [objGet, objSet, h]
      · by_cases ha' : a = k' <;> simp [objGet, objSet, ha, ha', ih, Ne.symm h]

theorem objSet_objSet_self (o : JsObj) (k : String) (v w : JsVal) :
    objSet (objSet o k v) k w = objSet o k w := by
  induction o with
  | nil => simp [objSet]
  | cons hd t ih =>
      obtain ⟨a, b⟩ := hd
      by_cases ha : a = k <;> simp [objSet, ha, ih]

/-- Re-writing an already re-written key through an intervening write
of a different key is absorbed. -/
theorem objSet_absorb (o : JsObj) (k k' : String) (v w : JsVal) (h : k ≠ k') :
    objSet (objSet (objSet o k v) k' w) k v = objSet (objSet o k v) k' w := by
  induction o with
  | nil => simp [objSet, h, Ne.symm h]
  | cons hd t ih =>
      obtain ⟨a, b⟩ := hd
      by_cases ha : a = k
      · subst ha
        simp [objSet, h, Ne.symm h]
      · by_cases ha' : a = k'
        · subst ha'
          simp [objSet, ha, h, Ne.symm h, objSet_objSet_self]
        · simp [objSet, ha, ha', ih]

/-! ### Trace-count lemmas -/

theorem evCount_settle_zero (p : Event → Bool) (c : DaoCall) (g : JsVal → List Event)
    (hth : ∀ e, p (.throwEv e) = false) (hnx : ∀ e, p (.nextCall e) = false)
    (hg : ∀ v, evCount p (g v) = 0) :
    evCount p (settle c g) = 0 := by
  cases c with
  | throws e => simp [settle, evCount, hth]
  | prom q =>
      cases q with
      | res v => simpa [settle] using hg v
      | rej e => simp [settle, evCount, hnx]

/-! ### Concrete fixtures used by witnesses and counterexamples -/

def tblUsers : Table := { name := "Users", primaryKey := [{ mapTo := "userID" }] }

def tblCourses : Table := { name := "UsersCourses", primaryKey := [{ mapTo := "userCourseID" }] }

/-- A DAO with no keys at all. -/
def emptyDao : Dao := fun _ => none

def errBoom : JsError := jsNewError "boom"

def resOk : JsVal := .obj [("resourceID", .num 1)]

/-- A DAO method rejecting its promise with `errBoom`. -/
def fnRej : DaoFn := fun _ => .prom (.rej errBoom)

/-- A DAO method resolving its promise with `resOk`. -/
def fnRes : DaoFn := fun _ => .prom (.res resOk)

def daoRej : Dao := fun _ => some (.fn fnRej)

def daoRes : Dao := fun _ => some (.fn fnRes)

def req0 : V1.Req := { body := .obj [], params := [], query := [] }

/-! ### Claims -/

/-- Claim C1: for every operation in {create, retrieve, retrieveByID,
update, delete, replace, options}, if the DAO capability set lacks the
operation's key, invoking the operation calls the error channel
exactly once with a NotFound-kind error whose message is
`Method {name} not available.`, the DAO is never called, and the
failure is signalled through the error channel, never as a synchronous
raise.  The produced trace is exactly one `next` call carrying the
`NotFoundError`; in particular it has no DAO invocation and no raise. -/
theorem c1_missing_capability_not_found (r : Router) (m : OpName) (req : V1.Req)
    (h : r.dao m = none) :
    V1.runOp r m req =
      [Event.nextCall (NotFoundError ("Method " ++ opStr m ++ " not available."))] ∧
    (NotFoundError ("Method " ++ opStr m ++ " not available.")).name = "NotFoundError" ∧
    daoCount (V1.runOp r m req) = 0 ∧
    throwCount (V1.runOp r m req) = 0 := by
  have htrace : V1.runOp r m req =
      [Event.nextCall (NotFoundError ("Method " ++ opStr m ++ " not available."))] := by
    cases m <;>
      simp [V1.runOp, V1.create, V1.retrieve, V1.retrieveByID, V1.update, V1.delete,
        V1.replace, V1.options, V1.verifyImpl, hasMethod, h, V1.onNotImplemented]
  refine ⟨htrace, rfl, ?_, ?_⟩ <;>
    simp [htrace, daoCount, throwCount, evCount, isDaoEv, isThrowEv]

/-- Witness for C1 at a concrete router: an empty DAO and the
`retrieveByID` operation. -/
theorem c1_witness :
    V1.runOp { dao := emptyDao, table := tblUsers, parentTable := none }
        OpName.retrieveByID req0 =
      [Event.nextCall (NotFoundError "Method retrieveByID not available.")] :=
  (c1_missing_capability_not_found _ OpName.retrieveByID req0 rfl).1

/-- Claim C9 counterexample: a DAO object whose `create` key is
present but holds the value `undefined`.  The key is present, yet
`hasMethod` — the check `dao[method] !== undefined` — returns false,
so `hasMethod` is not equivalent to key presence. -/
def daoUndefKey : Dao := fun m => if m = OpName.create then some JsProp.undef else none

theorem c9_counterexample :
    keyPresent daoUndefKey OpName.create = true ∧
    hasMethod daoUndefKey OpName.create = false := ⟨rfl, rfl⟩

/-- Claim C9 (amended): `hasMethod(name)` checks that the DAO holds
`name` with a value that is not `undefined`; it performs no type check
on the found value (a present non-callable value passes).  It returns
true iff the DAO has `name` as a key bound to a non-`undefined` value:
a key bound to `undefined` counts as not implemented, exactly like a
missing key. -/
theorem c9_has_method_presence (d : Dao) (m : OpName) :
    (hasMethod d m = true ↔ ∃ p, d m = some p ∧ p ≠ JsProp.undef) ∧
    (d m = some JsProp.notFn → hasMethod d m = true) := by
  constructor
  · constructor
    · intro hm
      cases hd : d m with
      | none => simp [hasMethod, hd] at hm
      | some p =>
          cases p with
          | undef => simp [hasMethod, hd] at hm
          | notFn => exact ⟨.notFn, rfl, by simp⟩
          | fn f => exact ⟨.fn f, rfl, by simp⟩
    · rintro ⟨p, hp, hne⟩
      cases p with
      | undef => exact absurd rfl hne
      | notFn => simp [hasMethod, hp]
      | fn f => simp [hasMethod, hp]
  · intro hp
    simp [hasMethod, hp]

/-- A DAO holding a non-callable value under every operation name. -/
def daoNotFn : Dao := fun _ => some JsProp.notFn

/-- Witness for C9: a present non-callable value passes `hasMethod`
(no type check on the found value). -/
theorem c9_witness : hasMethod daoNotFn OpName.update = true :=
  (c9_has_method_presence daoNotFn OpName.update).2 rfl

/-- Claim C10: in `replace` (both router variants) the capability
guard runs before the parent-table check: with the `replace` key
absent and no parent table, the call reports the NotFound-kind error
through the error channel and returns normally (no raise); the
synchronous `Parent table is required for replace operations.` error
is raised only when the DAO does implement `replace`. -/
theorem c10_replace_guard_order (r : Router) (req : V1.Req)
    (r2 : Router) (req2 : V2.Req) :
    (r.dao .replace = none → r.parentTable = none →
       V1.replace r req =
         [Event.nextCall (NotFoundError "Method replace not available.")] ∧
       throwCount (V1.replace r req) = 0) ∧
    (∀ f, r.dao .replace = some (JsProp.fn f) → r.parentTable = none →
       V1.replace r req =
         [Event.throwEv (jsNewError "Parent table is required for replace operations.")]) ∧
    (r2.dao .replace = none → r2.parentTable = none →
       V2.replace r2 req2 =
         [Event.nextCall (NotFoundError "Method replace not available.")] ∧
       throwCount (V2.replace r2 req2) = 0) ∧
    (∀ f, r2.dao .replace = some (JsProp.fn f) → r2.parentTable = none →
       V2.replace r2 req2 =
         [Event.throwEv (jsNewError "Parent table is required for replace operations.")]) := by
  refine ⟨?_, ?_, ?_, ?_⟩
  · intro hd hpt
    have htrace : V1.replace r req =
        [Event.nextCall (NotFoundError "Method replace not available.")] := by
      simp [V1.replace, V1.verifyImpl, hasMethod, hd, V1.onNotImplemented, opStr]
    exact ⟨htrace, by simp [htrace, throwCount, evCount, isThrowEv]⟩
  · intro f hf hpt
    simp [V1.replace, V1.verifyImpl, hasMethod, hf, hpt]
  · intro hd hpt
    have htrace : V2.replace r2 req2 =
        [Event.nextCall (NotFoundError "Method replace not available.")] := by
      simp [V2.replace, V2.verifyImpl, hasMethod, hd, V2.onNotImplemented, opStr]
    exact ⟨htrace, by simp [htrace, throwCount, evCount, isThrowEv]⟩
  · intro f hf hpt
    simp [V2.replace, V2.verifyImpl, hasMethod, hf, hpt]

def req0V2 : V2.Req := { body := [], params := [] }

/-- A router whose DAO always rejects, with a parent table. -/
def rRejW : Router := { dao := daoRej, table := tblCourses, parentTable := some tblUsers }

/-- A router whose DAO always resolves, with a parent table. -/
def rResW : Router := { dao := daoRes, table := tblCourses, parentTable := some tblUsers }

/-- Claim C2: for every operation, if the DAO's asynchronous result
rejects with an error `E`, the error channel is invoked exactly once
with `E` unchanged (never inspected or wrapped) and the responder is
never invoked; if the DAO's result resolves with `V`, the responder
serializes `V` exactly once and the error channel is never invoked.
For `replace` a parent table must be configured for the DAO call to be
reached at all; no other operation needs one. -/
theorem c2_settlement_contract (r : Router) (req : V1.Req) (m : OpName)
    (f : DaoFn)
    (hrep : m = OpName.replace → r.parentTable ≠ none)
    (hf : r.dao m = some (JsProp.fn f)) :
    (∀ E, (∀ as, f as = .prom (.rej E)) →
       nextCount (V1.runOp r m req) = 1 ∧
       Event.nextCall E ∈ V1.runOp r m req ∧
       jsonCount (V1.runOp r m req) = 0 ∧
       statusCount (V1.runOp r m req) = 0) ∧
    (∀ V, (∀ as, f as = .prom (.res V)) →
       jsonCount (V1.runOp r m req) = 1 ∧
       Event.jsonCall V ∈ V1.runOp r m req ∧
       nextCount (V1.runOp r m req) = 0) := by
  constructor
  · intro E hE
    cases m <;> cases hpt : r.parentTable <;>
      first
        | exact absurd hpt (hrep rfl)
        | simp [V1.runOp, V1.create, V1.retrieve, V1.retrieveByID, V1.update, V1.delete,
            V1.replace, V1.options, V1.verifyImpl, hasMethod, hf, hpt, invoke, hE, settle,
            nextCount, jsonCount, statusCount, evCount, isNextEv, isJsonEv, isStatusEv]
  · intro V hV
    cases m <;> cases hpt : r.parentTable <;>
      first
        | exact absurd hpt (hrep rfl)
        | simp [V1.runOp, V1.create, V1.retrieve, V1.retrieveByID, V1.update, V1.delete,
            V1.replace, V1.options, V1.verifyImpl, hasMethod, hf, hpt, invoke, hV, settle,
            nextCount, jsonCount, statusCount, evCount, isNextEv, isJsonEv, isStatusEv]

/-- Witness for C2 at concrete routers: an always-rejecting DAO under
`update` and an always-resolving DAO under `create`. -/
theorem c2_witness :
    (nextCount (V1.runOp rRejW OpName.update req0) = 1 ∧
     Event.nextCall errBoom ∈ V1.runOp rRejW OpName.update req0 ∧
     jsonCount (V1.runOp rRejW OpName.update req0) = 0 ∧
     statusCount (V1.runOp rRejW OpName.update req0) = 0) ∧
    (jsonCount (V1.runOp rResW OpName.create req0) = 1 ∧
     Event.jsonCall resOk ∈ V1.runOp rResW OpName.create req0 ∧
     nextCount (V1.runOp rResW OpName.create req0) = 0) :=
  ⟨(c2_settlement_contract rRejW req0 OpName.update fnRej (fun _ h => nomatch h) rfl).1
      errBoom (fun _ => rfl),
   (c2_settlement_contract rResW req0 OpName.create fnRes (fun _ h => nomatch h) rfl).2
      resOk (fun _ => rfl)⟩

/-- Claim C4: if the DAO implements `replace` but no parent table is
configured, invoking `replace` raises a synchronous usage error with
the exact message `Parent table is required for replace operations.`,
is not routed through the error channel, and never reaches the DAO;
with a configured parent table it calls
`DAO.replace(parentTable.name, parentID, body)`. -/
theorem c4_replace_requires_parent (r : Router) (req : V1.Req) (f : DaoFn)
    (hf : r.dao .replace = some (JsProp.fn f)) :
    (r.parentTable = none →
       V1.replace r req =
         [Event.throwEv (jsNewError "Parent table is required for replace operations.")] ∧
       nextCount (V1.replace r req) = 0 ∧
       daoCount (V1.replace r req) = 0) ∧
    (∀ pt c cs, r.parentTable = some pt → pt.primaryKey = c :: cs →
       ∃ rest, V1.replace r req =
         Event.daoCall .replace [.str pt.name, objGet req.params c.mapTo, req.body] :: rest) := by
  constructor
  · intro hpt
    have htrace : V1.replace r req =
        [Event.throwEv (jsNewError "Parent table is required for replace operations.")] := by
      simp [V1.replace, V1.verifyImpl, hasMethod, hf, hpt]
    exact ⟨htrace, by simp [htrace, nextCount, evCount, isNextEv],
      by simp [htrace, daoCount, evCount, isDaoEv]⟩
  · intro pt c cs hpt hpk
    have htrace : V1.replace r req =
        Event.daoCall .replace [.str pt.name, objGet req.params c.mapTo, req.body] ::
          settle (invoke r.dao .replace
              [.str pt.name, objGet req.params c.mapTo, req.body])
            (fun v => [.statusCall 201, .jsonCall v]) := by
      simp [V1.replace, V1.verifyImpl, hasMethod, hf, hpt, pkAlias, hpk]
    exact ⟨_, htrace⟩

/-- A router with a resolving DAO and no parent table. -/
def rResNoParent : Router := { dao := daoRes, table := tblCourses, parentTable := none }

/-- Witness for C4 at concrete routers: both the missing-parent raise
and the parent-table DAO call. -/
theorem c4_witness :
    V1.replace rResNoParent req0 =
      [Event.throwEv (jsNewError "Parent table is required for replace operations.")] ∧
    (∃ rest, V1.replace rResW req0 =
      Event.daoCall .replace [.str "Users", objGet req0.params "userID", req0.body] :: rest) :=
  ⟨((c4_replace_requires_parent rResNoParent req0 fnRes rfl).1 rfl).1,
   (c4_replace_requires_parent rResW req0 fnRes rfl).2
     tblUsers { mapTo := "userID" } [] rfl rfl⟩

/-! Helper lemmas for Claim C6: operations other than `create` and
`replace` never call `res.status`. -/

theorem statusCount_retrieve_eq_zero (r : Router) (req : V1.Req) :
    statusCount (V1.retrieve r req) = 0 := by
  by_cases hm : hasMethod r.dao .retrieve
  · cases hpt : r.parentTable with
    | some pt =>
        simp [V1.retrieve, V1.verifyImpl, hm, hpt, statusCount, evCount, isStatusEv]
        exact evCount_settle_zero _ _ _ (fun e => rfl) (fun e => rfl)
          (fun v => by simp [evCount, isStatusEv])
    | none =>
        simp [V1.retrieve, V1.verifyImpl, hm, hpt, statusCount, evCount, isStatusEv]
        exact evCount_settle_zero _ _ _ (fun e => rfl) (fun e => rfl)
          (fun v => by simp [evCount, isStatusEv])
  · simp [V1.retrieve, V1.verifyImpl, hm, V1.onNotImplemented, statusCount, evCount,
      isStatusEv]

theorem statusCount_retrieveByID_eq_zero (r : Router) (req : V1.Req) :
    statusCount (V1.retrieveByID r req) = 0 := by
  by_cases hm : hasMethod r.dao .retrieveByID
  · simp [V1.retrieveByID, V1.verifyImpl, hm, statusCount, evCount, isStatusEv]
    exact evCount_settle_zero _ _ _ (fun e => rfl) (fun e => rfl)
      (fun v => by simp [evCount, isStatusEv])
  · simp [V1.retrieveByID, V1.verifyImpl, hm, V1.onNotImplemented, statusCount, evCount,
      isStatusEv]

theorem statusCount_update_eq_zero (r : Router) (req : V1.Req) :
    statusCount (V1.update r req) = 0 := by
  by_cases hm : hasMethod r.dao .update
  · simp [V1.update, V1.verifyImpl, hm, statusCount, evCount, isStatusEv]
    exact evCount_settle_zero _ _ _ (fun e => rfl) (fun e => rfl)
      (fun v => by simp [evCount, isStatusEv])
  · simp [V1.update, V1.verifyImpl, hm, V1.onNotImplemented, statusCount, evCount, isStatusEv]

theorem statusCount_delete_eq_zero (r : Router) (req : V1.Req) :
    statusCount (V1.delete r req) = 0 := by
  by_cases hm : hasMethod r.dao .delete
  · simp [V1.delete, V1.verifyImpl, hm, statusCount, evCount, isStatusEv]
    exact evCount_settle_zero _ _ _ (fun e => rfl) (fun e => rfl)
      (fun v => by simp [evCount, isStatusEv])
  · simp [V1.delete, V1.verifyImpl, hm, V1.onNotImplemented, statusCount, evCount, isStatusEv]

theorem statusCount_options_eq_zero (r : Router) (req : V1.Req) :
    statusCount (V1.options r req) = 0 := by
  by_cases hm : hasMethod r.dao .options
  · simp [V1.options, V1.verifyImpl, hm, statusCount, evCount, isStatusEv]
    exact evCount_settle_zero _ _ _ (fun e => rfl) (fun e => rfl)
      (fun v => by simp [evCount, isStatusEv])
  · simp [V1.options, V1.verifyImpl, hm, V1.onNotImplemented, statusCount, evCount, isStatusEv]

theorem statusCount_retrieveWhere_eq_zero (parse : String → Except String JsVal)
    (r : Router) (req : V1.Req) :
    statusCount (V1.retrieveWhere parse r req) = 0 := by
  by_cases hm : hasMethod r.dao .retrieve
  · cases hw : V1.parseQueryField parse req.query "where" with
    | error msg =>
        simp [V1.retrieveWhere, V1.verifyImpl, hm, hw, statusCount, evCount, isStatusEv]
    | ok w =>
        cases hp : V1.parseQueryField parse req.query "params" with
        | error msg =>
            simp [V1.retrieveWhere, V1.verifyImpl, hm, hw, hp, statusCount, evCount,
              isStatusEv]
        | ok p =>
            cases hc : invoke r.dao .retrieve [w, p] with
            | throws e =>
                by_cases he : e.code = some "CONDITION_ERROR" <;>
                  simp [V1.retrieveWhere, V1.verifyImpl, hm, hw, hp, hc, he, statusCount,
                    evCount, isStatusEv]
            | prom p2 =>
                cases p2 <;>
                  simp [V1.retrieveWhere, V1.verifyImpl, hm, hw, hp, hc, statusCount,
                    evCount, isStatusEv]
  · simp [V1.retrieveWhere, V1.verifyImpl, hm, V1.onNotImplemented, statusCount, evCount,
      isStatusEv]

/-- Claim C6: `create` and `replace`, when the DAO resolves
successfully, call the responder's `status(201)` before serializing
the result with `json`; no other operation (including
`retrieveWhere`) ever calls `status`. -/
theorem c6_status_201_only_create_replace :
    (∀ (r : Router) (req : V1.Req) (f : DaoFn) (V : JsVal),
       r.dao .create = some (JsProp.fn f) →
       f [req.body] = .prom (.res V) →
       V1.create r req =
         [Event.daoCall .create [req.body], Event.statusCall 201, Event.jsonCall V]) ∧
    (∀ (r : Router) (req : V1.Req) (f : DaoFn) (V : JsVal) (pt : Table),
       r.dao .replace = some (JsProp.fn f) → r.parentTable = some pt →
       f [.str pt.name, objGet req.params (pkAlias pt), req.body] = .prom (.res V) →
       V1.replace r req =
         [Event.daoCall .replace [.str pt.name, objGet req.params (pkAlias pt), req.body],
          Event.statusCall 201, Event.jsonCall V]) ∧
    (∀ (r : Router) (m : OpName) (req : V1.Req), m ≠ OpName.create → m ≠ OpName.replace →
       statusCount (V1.runOp r m req) = 0) ∧
    (∀ (parse : String → Except String JsVal) (r : Router) (req : V1.Req),
       statusCount (V1.retrieveWhere parse r req) = 0) := by
  refine ⟨?_, ?_, ?_, ?_⟩
  · intro r req f V hf hres
    simp [V1.create, V1.verifyImpl, hasMethod, hf, invoke, hres, settle]
  · intro r req f V pt hf hpt hres
    simp [V1.replace, V1.verifyImpl, hasMethod, hf, hpt, invoke, hres, settle]
  · intro r m req h1 h2
    cases m with
    | create => exact absurd rfl h1
    | replace => exact absurd rfl h2
    | retrieve => exact statusCount_retrieve_eq_zero r req
    | retrieveByID => exact statusCount_retrieveByID_eq_zero r req
    | update => exact statusCount_update_eq_zero r req
    | delete => exact statusCount_delete_eq_zero r req
    | options => exact statusCount_options_eq_zero r req
  · exact statusCount_retrieveWhere_eq_zero

/-- Witness for C6: a resolving `create` at a concrete router emits
`status(201)` then `json`. -/
theorem c6_witness :
    V1.create rResNoParent req0 =
      [Event.daoCall .create [req0.body], Event.statusCall 201, Event.jsonCall resOk] :=
  c6_status_201_only_create_replace.1 rResNoParent req0 fnRes resOk rfl rfl

/-- Claim C7: identifier extraction always uses exactly the first
element of `primaryKey`: `retrieve` with a configured parent table
calls `DAO.retrieve(parentID)` with
`parentID = params[parentTable.primaryKey[0].alias]`, and without a
parent table calls `DAO.retrieve()` with zero arguments;
`retrieveByID` and `delete` read the identifier from
`params[table.primaryKey[0].alias]`, and `delete` calls
`DAO.delete({[pkAlias]: id})`. -/
theorem c7_first_primary_key_identifier (r : Router) (req : V1.Req)
    (c : Column) (cs : List Column) :
    (∀ f pt, r.dao .retrieve = some (JsProp.fn f) → r.parentTable = some pt →
       pt.primaryKey = c :: cs →
       ∃ rest, V1.retrieve r req =
         Event.daoCall .retrieve [objGet req.params c.mapTo] :: rest) ∧
    (∀ f, r.dao .retrieve = some (JsProp.fn f) → r.parentTable = none →
       ∃ rest, V1.retrieve r req = Event.daoCall .retrieve [] :: rest) ∧
    (∀ f, r.dao .retrieveByID = some (JsProp.fn f) → r.table.primaryKey = c :: cs →
       ∃ rest, V1.retrieveByID r req =
         Event.daoCall .retrieveByID [objGet req.params c.mapTo] :: rest) ∧
    (∀ f, r.dao .delete = some (JsProp.fn f) → r.table.primaryKey = c :: cs →
       ∃ rest, V1.delete r req =
         Event.daoCall .delete [.obj [(c.mapTo, objGet req.params c.mapTo)]] :: rest) := by
  refine ⟨?_, ?_, ?_, ?_⟩
  · intro f pt hf hpt hpk
    have htrace : V1.retrieve r req =
        Event.daoCall .retrieve [objGet req.params c.mapTo] ::
          settle (invoke r.dao .retrieve [objGet req.params c.mapTo])
            (fun v => [Event.jsonCall v]) := by
      simp [V1.retrieve, V1.verifyImpl, hasMethod, hf, hpt, pkAlias, hpk]
    exact ⟨_, htrace⟩
  · intro f hf hpt
    have htrace : V1.retrieve r req =
        Event.daoCall .retrieve [] ::
          settle (invoke r.dao .retrieve []) (fun v => [Event.jsonCall v]) := by
      simp [V1.retrieve, V1.verifyImpl, hasMethod, hf, hpt]
    exact ⟨_, htrace⟩
  · intro f hf hpk
    have htrace : V1.retrieveByID r req =
        Event.daoCall .retrieveByID [objGet req.params c.mapTo] ::
          settle (invoke r.dao .retrieveByID [objGet req.params c.mapTo])
            (fun v => [Event.jsonCall v]) := by
      simp [V1.retrieveByID, V1.verifyImpl, hasMethod, hf, pkAlias, hpk]
    exact ⟨_, htrace⟩
  · intro f hf hpk
    have htrace : V1.delete r req =
        Event.daoCall .delete [.obj [(c.mapTo, objGet req.params c.mapTo)]] ::
          settle (invoke r.dao .delete [.obj [(c.mapTo, objGet req.params c.mapTo)]])
            (fun v => [Event.jsonCall v]) := by
      simp [V1.delete, V1.verifyImpl, hasMethod, hf, pkAlias, hpk]
    exact ⟨_, htrace⟩

/-- Claim C3: in `retrieveWhere`, any condition/semantic violation
signalled by the DAO's `retrieve` operation — per the DAO contract a
synchronous throw carrying code `CONDITION_ERROR` — is caught and
re-signalled through the error channel as a ValidationError whose
field is fixed to `where`, preserving the DAO's original code and
message; any other DAO error (a synchronous throw with a different
code, or an asynchronous rejection) is forwarded unchanged with no
re-tagging. -/
theorem c3_condition_error_retagged (parse : String → Except String JsVal)
    (r : Router) (req : V1.Req) (f : DaoFn) (w p : JsVal)
    (hf : r.dao .retrieve = some (JsProp.fn f))
    (hw : V1.parseQueryField parse req.query "where" = .ok w)
    (hp : V1.parseQueryField parse req.query "params" = .ok p) :
    (∀ E, f [w, p] = .throws E → E.code = some "CONDITION_ERROR" →
       V1.retrieveWhere parse r req =
         [Event.daoCall .retrieve [w, p],
          Event.nextCall (ValidationError E.message "CONDITION_ERROR" "where")]) ∧
    (∀ E, f [w, p] = .throws E → E.code ≠ some "CONDITION_ERROR" →
       V1.retrieveWhere parse r req =
         [Event.daoCall .retrieve [w, p], Event.nextCall E]) ∧
    (∀ E, f [w, p] = .prom (.rej E) →
       V1.retrieveWhere parse r req =
         [Event.daoCall .retrieve [w, p], Event.nextCall E]) := by
  refine ⟨?_, ?_, ?_⟩
  · intro E hthrow hcode
    simp [V1.retrieveWhere, V1.verifyImpl, hasMethod, hf, hw, hp, invoke, hthrow, hcode,
      ValidationError]
  · intro E hthrow hcode
    simp [V1.retrieveWhere, V1.verifyImpl, hasMethod, hf, hw, hp, invoke, hthrow, hcode]
  · intro E hrej
    simp [V1.retrieveWhere, V1.verifyImpl, hasMethod, hf, hw, hp, invoke, hrej]

/-- A DAO error carrying the condition-violation code. -/
def errCond : JsError :=
  { name := "ConditionError", message := "Bad condition", code := some "CONDITION_ERROR"
  , field := none }

/-- A DAO whose `retrieve` throws `errCond` synchronously. -/
def fnThrowCond : DaoFn := fun _ => .throws errCond

def daoThrowCond : Dao := fun _ => some (.fn fnThrowCond)

def rCond : Router := { dao := daoThrowCond, table := tblUsers, parentTable := none }

/-- Witness for C3 at a concrete router: the thrown condition error is
re-tagged onto field `where` with its code and message preserved. -/
theorem c3_witness :
    V1.retrieveWhere (fun s => .error s) rCond req0 =
      [Event.daoCall .retrieve [.undef, .undef],
       Event.nextCall (ValidationError "Bad condition" "CONDITION_ERROR" "where")] :=
  (c3_condition_error_retagged (fun s => .error s) rCond req0 fnThrowCond .undef .undef
    rfl rfl rfl).1 errCond rfl rfl

/-- Claim C5: in `retrieveWhere`, if `query.where` is present
(non-empty) but is not valid JSON, the error channel receives a
ValidationError with code `VAL_JSON` and field `where` carrying the
parser's message, and the DAO is never called; likewise an unparsable
`query.params` yields `VAL_JSON` with field `params`; if `query.where`
is absent or empty, the call does not fail and produces an unfiltered
retrieval via the DAO (the filter argument is `undefined`). -/
theorem c5_filter_json_validation (parse : String → Except String JsVal)
    (r : Router) (req : V1.Req)
    (hm : hasMethod r.dao .retrieve = true) :
    (∀ s msg, qGet req.query "where" = some s → s ≠ "" → parse s = .error msg →
       V1.retrieveWhere parse r req =
         [Event.nextCall (ValidationError
           ("\"where\" does not contain valid JSON: " ++ msg) "VAL_JSON" "where")] ∧
       daoCount (V1.retrieveWhere parse r req) = 0) ∧
    (∀ w s msg, V1.parseQueryField parse req.query "where" = .ok w →
       qGet req.query "params" = some s → s ≠ "" → parse s = .error msg →
       V1.retrieveWhere parse r req =
         [Event.nextCall (ValidationError
           ("\"params\" does not contain valid JSON: " ++ msg) "VAL_JSON" "params")] ∧
       daoCount (V1.retrieveWhere parse r req) = 0) ∧
    (∀ p f V, (qGet req.query "where" = none ∨ qGet req.query "where" = some "") →
       V1.parseQueryField parse req.query "params" = .ok p →
       r.dao .retrieve = some (JsProp.fn f) →
       f [.undef, p] = .prom (.res V) →
       V1.retrieveWhere parse r req =
         [Event.daoCall .retrieve [.undef, p], Event.jsonCall V] ∧
       nextCount (V1.retrieveWhere parse r req) = 0) := by
  refine ⟨?_, ?_, ?_⟩
  · intro s msg hq hs hparse
    have htrace : V1.retrieveWhere parse r req =
        [Event.nextCall (ValidationError
          ("\"where\" does not contain valid JSON: " ++ msg) "VAL_JSON" "where")] := by
      simp [V1.retrieveWhere, V1.verifyImpl, hm, V1.parseQueryField, qGet, hq, hs, hparse]
    exact ⟨htrace, by simp [htrace, daoCount, evCount, isDaoEv]⟩
  · intro w s msg hw hq hs hparse
    have hp2 : V1.parseQueryField parse req.query "params" = .error msg := by
      simp [V1.parseQueryField, hq, hs, hparse]
    have htrace : V1.retrieveWhere parse r req =
        [Event.nextCall (ValidationError
          ("\"params\" does not contain valid JSON: " ++ msg) "VAL_JSON" "params")] := by
      simp [V1.retrieveWhere, V1.verifyImpl, hm, hw, hp2]
    exact ⟨htrace, by simp [htrace, daoCount, evCount, isDaoEv]⟩
  · intro p f V hwq hp hf hres
    have hw : V1.parseQueryField parse req.query "where" = .ok .undef := by
      rcases hwq with h | h <;> simp [V1.parseQueryField, h]
    have htrace : V1.retrieveWhere parse r req =
        [Event.daoCall .retrieve [.undef, p], Event.jsonCall V] := by
      simp [V1.retrieveWhere, V1.verifyImpl, hm, hw, hp, invoke, hf, hres]
    exact ⟨htrace, by simp [htrace, nextCount, evCount, isNextEv]⟩

/-- A request whose `where` query field is the unparsable text `nope`. -/
def reqBadWhere : V1.Req := { body := .obj [], params := [], query := [("where", "nope")] }

/-- Witness for C5 at concrete inputs: an unparsable `where` produces
the `VAL_JSON` validation error without any DAO call, and an absent
`where` produces an unfiltered retrieval. -/
theorem c5_witness :
    (V1.retrieveWhere (fun s => .error s) rResW reqBadWhere =
       [Event.nextCall (ValidationError
         ("\"where\" does not contain valid JSON: " ++ "nope") "VAL_JSON" "where")] ∧
     daoCount (V1.retrieveWhere (fun s => .error s) rResW reqBadWhere) = 0) ∧
    (V1.retrieveWhere (fun s => .error s) rResW req0 =
       [Event.daoCall .retrieve [.undef, .undef], Event.jsonCall resOk] ∧
     nextCount (V1.retrieveWhere (fun s => .error s) rResW req0) = 0) :=
  ⟨(c5_filter_json_validation (fun s => .error s) rResW reqBadWhere rfl).1
      "nope" "nope" rfl (by decide) rfl,
   (c5_filter_json_validation (fun s => .error s) rResW req0 rfl).2.2
      .undef fnRes resOk (Or.inl rfl) rfl rfl rfl⟩

/-- A request carrying identifiers for both tables. -/
def reqIDs : V1.Req :=
  { body := .obj []
  , params := [("userID", .num 42), ("userCourseID", .num 12)]
  , query := [] }

/-- Witness for C7: parent-scoped `retrieve` and keyed `delete` at a
concrete router. -/
theorem c7_witness :
    (∃ rest, V1.retrieve rResW reqIDs =
       Event.daoCall .retrieve [objGet reqIDs.params "userID"] :: rest) ∧
    (∃ rest, V1.delete rResW reqIDs =
       Event.daoCall .delete
         [.obj [("userCourseID", objGet reqIDs.params "userCourseID")]] :: rest) :=
  ⟨(c7_first_primary_key_identifier rResW reqIDs { mapTo := "userID" } []).1
      fnRes tblUsers rfl rfl rfl,
   (c7_first_primary_key_identifier rResW reqIDs { mapTo := "userCourseID" } []).2.2.2
      fnRes rfl rfl⟩

/-- Witness for C10 at concrete routers: both orderings observed. -/
theorem c10_witness :
    V1.replace { dao := emptyDao, table := tblCourses, parentTable := none } req0 =
      [Event.nextCall (NotFoundError "Method replace not available.")] ∧
    V2.replace { dao := daoRej, table := tblCourses, parentTable := none } req0V2 =
      [Event.throwEv (jsNewError "Parent table is required for replace operations.")] :=
  ⟨((c10_replace_guard_order { dao := emptyDao, table := tblCourses, parentTable := none }
      req0 { dao := daoRej, table := tblCourses, parentTable := none } req0V2).1 rfl rfl).1,
   (c10_replace_guard_order { dao := emptyDao, table := tblCourses, parentTable := none }
      req0 { dao := daoRej, table := tblCourses, parentTable := none } req0V2).2.2.2
     fnRej rfl rfl⟩

/-! Helper characterization of `V2.updateBody`: the body transform it
applies, extracted so reconciliation algebra can be stated on plain
association lists. -/

/-- The own-identifier step of `updateBody`: overwrite the body under
the table's alias when the parameter value is truthy. -/
def reconcileOwn (t : Table) (params b : JsObj) : JsObj :=
  if truthy (objGet params (pkAlias t)) then
    objSet b (pkAlias t) (objGet params (pkAlias t))
  else b

/-- The full body transform of `updateBody`: own step, then, with a
parent table, the unconditional parent overwrite. -/
def reconcileBody (tbl : Table) (pt : Option Table) (params b : JsObj) : JsObj :=
  match pt with
  | none => reconcileOwn tbl params b
  | some p => objSet (reconcileOwn tbl params b) (pkAlias p) (objGet params (pkAlias p))

theorem updateBody_eq (r : Router) (req : V2.Req) :
    V2.updateBody r req =
      ({ body := reconcileBody r.table r.parentTable req.params req.body
       , params := req.params }, true) := by
  cases hpt : r.parentTable with
  | none =>
      cases hc : truthy (objGet req.params (pkAlias r.table)) <;>
        simp [V2.updateBody, hpt, reconcileBody, reconcileOwn, hc]
  | some pt =>
      cases hc : truthy (objGet req.params (pkAlias r.table)) <;>
        simp [V2.updateBody, hpt, reconcileBody, reconcileOwn, hc]

theorem reconcileOwn_idem (t : Table) (params b : JsObj) :
    reconcileOwn t params (reconcileOwn t params b) = reconcileOwn t params b := by
  cases hc : truthy (objGet params (pkAlias t)) <;>
    simp [reconcileOwn, hc, objSet_objSet_self]

theorem reconcileBody_idem (tbl : Table) (pt : Option Table) (params b : JsObj) :
    reconcileBody tbl pt params (reconcileBody tbl pt params b) =
      reconcileBody tbl pt params b := by
  cases pt with
  | none => simp [reconcileBody, reconcileOwn_idem]
  | some p =>
      cases hc : truthy (objGet params (pkAlias tbl))
      · simp [reconcileBody, reconcileOwn, hc, objSet_objSet_self]
      · by_cases hkk : pkAlias tbl = pkAlias p
        · simp [reconcileBody, reconcileOwn, hc, hkk, objSet_objSet_self]
        · simp only [reconcileBody, reconcileOwn, hc, if_pos]
          rw [objSet_absorb _ _ _ _ _ hkk, objSet_objSet_self]

/-- Claim C8 counterexample: the table's own identifier is present in
`params` (bound to the empty string), yet `updateBody` performs no
overwrite, because the source checks `if (req.params[pkAlias])` —
truthiness, not presence — and the empty string is falsy.  The body
keeps its original value. -/
def reqC8 : V2.Req :=
  { body := [("userID", .str "old")], params := [("userID", .str "")] }

def rC8 : Router := { dao := emptyDao, table := tblUsers, parentTable := none }

theorem c8_counterexample :
    objGet reqC8.params "userID" = JsVal.str "" ∧
    (V2.updateBody rC8 reqC8).1.body = [("userID", JsVal.str "old")] ∧
    ("old" : String) ≠ "" := ⟨rfl, rfl, by decide⟩

/-- Claim C8 (amended): for mutation operations (`create`, `update`)
in the variant with the Body Reconciler: with a configured parent
table, the parent identifier from `params` is copied into the body
under the parent's primary-key alias, unconditionally overwriting any
existing body value; when the resource's own identifier is present in
`params` with a truthy (non-empty) value, the same overwrite is
performed under the table's own alias; the reconciliation always
succeeds (returns true) and is idempotent; `create` and `update` pass
the reconciled body to the DAO. -/
theorem c8_body_reconciliation (r : Router) (req : V2.Req) :
    (∀ pt c cs, r.parentTable = some pt → pt.primaryKey = c :: cs →
       objGet (V2.updateBody r req).1.body c.mapTo = objGet req.params c.mapTo) ∧
    (∀ c cs, r.table.primaryKey = c :: cs →
       truthy (objGet req.params c.mapTo) = true →
       objGet (V2.updateBody r req).1.body c.mapTo = objGet req.params c.mapTo) ∧
    (V2.updateBody r req).2 = true ∧
    V2.updateBody r (V2.updateBody r req).1 = V2.updateBody r req ∧
    (∀ f, r.dao .create = some (JsProp.fn f) →
       ∃ rest, V2.create r req =
         Event.daoCall .create [.obj (V2.updateBody r req).1.body] :: rest) ∧
    (∀ f, r.dao .update = some (JsProp.fn f) →
       ∃ rest, V2.update r req =
         Event.daoCall .update [.obj (V2.updateBody r req).1.body] :: rest) := by
  refine ⟨?_, ?_, ?_, ?_, ?_, ?_⟩
  · intro pt c cs hpt hpk
    rw [updateBody_eq]
    simp [reconcileBody, hpt, pkAlias, hpk]
  · intro c cs hpk htr
    rw [updateBody_eq]
    have hpa : pkAlias r.table = c.mapTo := by simp [pkAlias, hpk]
    cases hpt : r.parentTable with
    | none => simp [reconcileBody, reconcileOwn, hpa, htr]
    | some pt =>
        by_cases hkk : pkAlias pt = c.mapTo
        · simp [reconcileBody, reconcileOwn, hpa, htr, hkk]
        · simp [reconcileBody, reconcileOwn, hpa, htr,
            objGet_objSet_ne _ _ _ _ hkk]
  · rw [updateBody_eq]
  · rw [updateBody_eq r req, updateBody_eq]
    simp [reconcileBody_idem]
  · intro f hf
    have hub := updateBody_eq r req
    have htrace : V2.create r req =
        Event.daoCall .create [.obj (V2.updateBody r req).1.body] ::
          settle (invoke r.dao .create [.obj (V2.updateBody r req).1.body])
            (fun v => [.statusCall 201, .jsonCall v]) := by
      simp [V2.create, V2.verifyImpl, hasMethod, hf, hub]
    exact ⟨_, htrace⟩
  · intro f hf
    have hub := updateBody_eq r req
    have htrace : V2.update r req =
        Event.daoCall .update [.obj (V2.updateBody r req).1.body] ::
          settle (invoke r.dao .update [.obj (V2.updateBody r req).1.body])
            (fun v => [.jsonCall v]) := by
      simp [V2.update, V2.verifyImpl, hasMethod, hf, hub]
    exact ⟨_, htrace⟩

/-- A parent-scoped router and request for the C8 witness. -/
def rV2W : Router := { dao := daoRes, table := tblCourses, parentTable := some tblUsers }

def reqV2W : V2.Req :=
  { body := [("userCourseID", .str "7"), ("userID", .str "999")]
  , params := [("userID", .str "42"), ("userCourseID", .str "12")] }

/-- Witness for C8 at a concrete router: the parent identifier from
`params` wins over the payload-supplied one, and reconciliation is
idempotent. -/
theorem c8_witness :
    objGet (V2.updateBody rV2W reqV2W).1.body "userID" = objGet reqV2W.params "userID" ∧
    V2.updateBody rV2W (V2.updateBody rV2W reqV2W).1 = V2.updateBody rV2W reqV2W :=
  ⟨(c8_body_reconciliation rV2W reqV2W).1 tblUsers { mapTo := "userID" } [] rfl rfl,
   (c8_body_reconciliation rV2W reqV2W).2.2.2.1⟩

end BsyRouter
